import Mathlib

/-!
Shallow embedding of the SwiftMeet booking backend (`src/app.py`).

The three SQL tables (`users`, `services`, `slots`) are modelled as Lean
lists of records; each Flask handler becomes a pure function from the
database state (plus the resolved caller and the current time) to a new
database state and a response.  Timestamps are integers (minutes); the
15-minute grace period of the lazy reschedule pass is the constant 15.
`datetime.fromisoformat` is a standard-library parser and is modelled
abstractly by the parse outcome (missing / malformed / a parsed value).
SQLAlchemy's `ORDER BY ... ASC LIMIT 1` is modelled by picking a
minimal-time element of the filtered list; `ORDER BY time DESC` by an
insertion sort on times, descending.
-/

namespace SwiftMeet

/-- A row of the `users` table (`class User` in `app.py`). -/
structure User where
  id : Nat
  name : String
  email : String
  password_hash : String
  phone : String
  place : String
  role : String
  deriving Repr, DecidableEq

/-- A row of the `services` table (`class Service`); `lat`/`lng` are
floating-point and irrelevant to every handler modelled here, so they are
omitted. -/
structure Service where
  id : Nat
  admin_id : Nat
  name : String
  type : String
  specialty : Option String
  description : Option String
  address : String
  deriving Repr, DecidableEq

/-- A row of the `slots` table (`class Slot`). -/
structure Slot where
  id : Nat
  service_id : Nat
  time : Int
  booked : Bool
  booked_by_id : Option Nat
  booked_by_name : Option String
  booked_at : Option Int
  status : String
  auto_rescheduled : Bool
  arrived : Bool
  deriving Repr, DecidableEq

/-- The persistent state: the three tables. -/
structure DB where
  users : List User
  services : List Service
  slots : List Slot
  deriving Repr, DecidableEq

/-- An error response: HTTP status code and the `error` message. -/
structure Err where
  code : Nat
  msg : String
  deriving Repr, DecidableEq

/-- Model of `UPDATE slots SET ... WHERE id = sid` (mutating an ORM object found by
primary key and committing). -/
def updateSlot (slots : List Slot) (sid : Nat) (f : Slot → Slot) : List Slot :=
  slots.map (fun s => if s.id = sid then f s else s)

/-- First element of minimal `time` in `x :: xs` (ties keep the earlier
element): the result of `ORDER BY time ASC ... .first()` on a nonempty
result set. -/
def minByTime (x : Slot) (xs : List Slot) : Slot :=
  xs.foldl (fun b s => if s.time < b.time then s else b) x

/-- Model of `query.filter(p).order_by(Slot.time.asc()).first()`. -/
def earliestBy (p : Slot → Bool) (slots : List Slot) : Option Slot :=
  match slots.filter p with
  | [] => none
  | x :: xs => some (minByTime x xs)

/-- The candidate filter of `_find_and_book_next_slot`: same service,
unbooked, strictly in the future. -/
def isCandidate (serviceId : Nat) (now : Int) (s : Slot) : Bool :=
  s.service_id = serviceId && s.booked = false && now < s.time

/-- The field updates of `_find_and_book_next_slot` on the replacement
slot. -/
def applyBooking (userId : Nat) (userName : String) (now : Int) (auto : Bool)
    (s : Slot) : Slot :=
  { s with
    booked := true
    booked_by_id := some userId
    booked_by_name := some userName
    booked_at := some now
    status := "booked"
    auto_rescheduled := auto }

/-- Model of `_find_and_book_next_slot(user, service_id, old_slot, auto=auto)`
(`app.py` lines 426-460).  The candidate query runs first; the old slot is
then marked `no-show`; if a candidate exists its booking fields are set and
it is returned. -/
def find_and_book_next_slot (slots : List Slot) (userId : Nat)
    (userName : String) (serviceId : Nat) (oldSlot : Slot) (auto : Bool)
    (now : Int) : List Slot × Option Slot :=
  let next := earliestBy (isCandidate serviceId now) slots
  let slots1 := updateSlot slots oldSlot.id (fun s => { s with status := "no-show" })
  match next with
  | none => (slots1, none)
  | some ns =>
      (updateSlot slots1 ns.id (applyBooking userId userName now auto),
       some (applyBooking userId userName now auto ns))

/-- The field updates of `api_book_slot` on a successfully booked slot
(lines 477-481); note `auto_rescheduled` is left untouched. -/
def bookFields (userId : Nat) (userName : String) (now : Int) (s : Slot) : Slot :=
  { s with
    booked := true
    booked_by_id := some userId
    booked_by_name := some userName
    booked_at := some now
    status := "booked" }

/-- Handler `POST /api/bookings` (`api_book_slot`, lines 463-485).  `slotId` is the
JSON `slot_id` field (`none` = absent); `if not slot_id` also rejects the
falsy value `0`. -/
def api_book_slot (db : DB) (userId : Nat) (userName : String)
    (slotId : Option Nat) (now : Int) : DB × Except Err Slot :=
  match slotId with
  | none => (db, .error ⟨400, "slot_id is required"⟩)
  | some sid =>
    if sid = 0 then (db, .error ⟨400, "slot_id is required"⟩)
    else
      match db.slots.find? (fun s => s.id == sid) with
      | none => (db, .error ⟨400, "Slot not available"⟩)
      | some slot =>
        if slot.booked then (db, .error ⟨400, "Slot not available"⟩)
        else
          ({ db with slots := updateSlot db.slots sid (bookFields userId userName now) },
           .ok (bookFields userId userName now slot))

/-- Outcome of extracting and ISO-8601-parsing the request's `time` field:
absent/empty (`if not time_str`), rejected by `datetime.fromisoformat`
(modelled abstractly), or parsed to a timestamp. -/
inductive TimeField
  | missing
  | malformed
  | valid (t : Int)
  deriving Repr, DecidableEq

/-- Handler `POST /api/admin/services/<service_id>/slots` (`api_admin_create_slot`,
lines 337-366).  `newId` is the primary key the database assigns. -/
def api_admin_create_slot (db : DB) (adminId serviceId : Nat)
    (timeField : TimeField) (now : Int) (newId : Nat) : DB × Except Err Slot :=
  match db.services.find? (fun s => s.id == serviceId && s.admin_id == adminId) with
  | none => (db, .error ⟨404, "Service not found"⟩)
  | some service =>
    match timeField with
    | .missing => (db, .error ⟨400, "time is required (ISO 8601)"⟩)
    | .malformed => (db, .error ⟨400, "Invalid time format"⟩)
    | .valid t =>
      if t ≤ now then (db, .error ⟨400, "Cannot add a slot in the past"⟩)
      else
        let slot : Slot :=
          { id := newId, service_id := service.id, time := t, booked := false,
            booked_by_id := none, booked_by_name := none, booked_at := none,
            status := "available", auto_rescheduled := false, arrived := false }
        ({ db with slots := db.slots ++ [slot] }, .ok slot)

/-- Handler `DELETE /api/admin/services/<service_id>` (`api_admin_delete_service`,
lines 294-306): slots of the service are deleted first, then the service,
in one transaction. -/
def api_admin_delete_service (db : DB) (adminId serviceId : Nat) :
    DB × Except Err Unit :=
  match db.services.find? (fun s => s.id == serviceId && s.admin_id == adminId) with
  | none => (db, .error ⟨404, "Service not found"⟩)
  | some service =>
    ({ db with
        slots := db.slots.filter (fun sl => !(sl.service_id == service.id)),
        services := db.services.filter (fun s => !(s.id == service.id)) },
     .ok ())

/-- Handler `DELETE /api/admin/services/<service_id>/slots/<slot_id>`
(`api_admin_delete_slot`, lines 369-383). -/
def api_admin_delete_slot (db : DB) (adminId serviceId slotId : Nat) :
    DB × Except Err Unit :=
  match db.services.find? (fun s => s.id == serviceId && s.admin_id == adminId) with
  | none => (db, .error ⟨404, "Service not found"⟩)
  | some service =>
    match db.slots.find? (fun sl => sl.id == slotId && sl.service_id == service.id) with
    | none => (db, .error ⟨404, "Slot not found"⟩)
    | some slot =>
      ({ db with slots := db.slots.filter (fun sl => !(sl.id == slot.id)) }, .ok ())

/-- Handler `POST /api/bookings/<slot_id>/arrived` (`api_mark_arrived`,
lines 550-563). -/
def api_mark_arrived (db : DB) (userId : Nat) (slotId : Nat) :
    DB × Except Err Slot :=
  match db.slots.find? (fun s => s.id == slotId && s.booked_by_id == some userId) with
  | none => (db, .error ⟨404, "Booking not found"⟩)
  | some slot =>
    let f : Slot → Slot := fun s => { s with status := "arrived", arrived := true }
    ({ db with slots := updateSlot db.slots slot.id f }, .ok (f slot))

/-- Handler `POST /api/admin/bookings/<slot_id>/arrived` (`api_admin_mark_arrived`,
lines 604-616). -/
def api_admin_mark_arrived (db : DB) (slotId : Nat) : DB × Except Err Slot :=
  match db.slots.find? (fun s => s.id == slotId) with
  | none => (db, .error ⟨404, "Booking not found"⟩)
  | some slot =>
    if slot.booked = false then (db, .error ⟨404, "Booking not found"⟩)
    else
      let f : Slot → Slot := fun s => { s with status := "arrived", arrived := true }
      ({ db with slots := updateSlot db.slots slot.id f }, .ok (f slot))

/-- Handler `POST /api/bookings/<slot_id>/find-next-slot` (`api_find_next_slot`,
lines 566-580).  `.ok none` is the 200 "No next available slots" reply. -/
def api_find_next_slot (db : DB) (userId : Nat) (userName : String)
    (slotId : Nat) (now : Int) : DB × Except Err (Option Slot) :=
  match db.slots.find? (fun s => s.id == slotId && s.booked_by_id == some userId) with
  | none => (db, .error ⟨404, "Booking not found"⟩)
  | some oldSlot =>
    let r := find_and_book_next_slot db.slots userId userName oldSlot.service_id
      oldSlot false now
    ({ db with slots := r.fst }, .ok r.snd)

/-- The `Slot.query.join(Service)` inner join: the slot's service row
exists. -/
def hasService (services : List Service) (s : Slot) : Bool :=
  services.any (fun sv => sv.id == s.service_id)

/-- The `second_misses` filter of `api_list_user_bookings` (lines 503-513):
booked by the user, still `status="booked"`, not arrived, past the
15-minute grace window, and already auto-rescheduled once. -/
def isSecondMiss (userId : Nat) (now : Int) (s : Slot) : Bool :=
  s.booked_by_id == some userId && s.status == "booked" && s.arrived == false
    && s.time + 15 < now && s.auto_rescheduled == true

/-- The `missed_candidate` filter (lines 523-534): as `isSecondMiss` but
never yet auto-rescheduled. -/
def isMissedCandidate (userId : Nat) (now : Int) (s : Slot) : Bool :=
  s.booked_by_id == some userId && s.status == "booked" && s.arrived == false
    && s.time + 15 < now && s.auto_rescheduled == false

/-- Pass 1 of `api_list_user_bookings`: every second miss becomes
`no-show`. -/
def markSecondMisses (services : List Service) (userId : Nat) (now : Int)
    (slots : List Slot) : List Slot :=
  slots.map (fun s =>
    if hasService services s && isSecondMiss userId now s
    then { s with status := "no-show" } else s)

/-- Pass 2's candidate query: earliest missed, never-auto-rescheduled slot
of the user. -/
def missedCandidate (services : List Service) (userId : Nat) (now : Int)
    (slots : List Slot) : Option Slot :=
  earliestBy (fun s => hasService services s && isMissedCandidate userId now s) slots

/-- Model of `ORDER BY Slot.time DESC`. -/
def sortByTimeDesc (slots : List Slot) : List Slot :=
  slots.insertionSort (fun a b => b.time ≤ a.time)

/-- Handler `GET /api/bookings` (`api_list_user_bookings`, lines 488-547): mark
second misses `no-show`, auto-reschedule the earliest remaining missed
slot, then fetch the caller's bookings most recent first. -/
def api_list_user_bookings (db : DB) (userId : Nat) (userName : String)
    (now : Int) : DB × List Slot :=
  let slots1 := markSecondMisses db.services userId now db.slots
  let slots2 := match missedCandidate db.services userId now slots1 with
    | none => slots1
    | some c => (find_and_book_next_slot slots1 userId userName c.service_id
        c true now).fst
  let bookings := sortByTimeDesc (slots2.filter
    (fun s => hasService db.services s && s.booked_by_id == some userId))
  ({ db with slots := slots2 }, bookings)

/-- Handler `POST /api/register` (`api_register`, lines 196-224).  `name`, `email`,
`phone` and `place` are the request fields after the standard-library
`.strip()` (and, for the email, `.lower()`) normalization, which is
modelled as part of request extraction; `roleField` is the raw JSON `role`
value (`none` = absent; `""` hits the `or "user"` falsy default); `hash`
stands for `generate_password_hash(password)`. -/
def api_register (db : DB) (name email password phone place : String)
    (roleField : Option String) (newId : Nat) (hash : String) :
    DB × Except Err User :=
  let role := match roleField with
    | none => "user"
    | some r => if r = "" then "user" else r
  if name = "" ∨ email = "" ∨ password = "" ∨ phone = "" ∨ place = "" then
    (db, .error ⟨400, "All fields are required."⟩)
  else
    match db.users.find? (fun u => u.email == email) with
    | some _ => (db, .error ⟨400, "Email already registered."⟩)
    | none =>
      let user : User :=
        { id := newId, name := name, email := email, password_hash := hash,
          phone := phone, place := place,
          role := if role = "user" ∨ role = "admin" then role else "user" }
      ({ db with users := db.users ++ [user] }, .ok user)

/-! ### Lemmas about the `ORDER BY time ASC ... .first()` model -/

theorem minByTime_cons (x y : Slot) (ys : List Slot) :
    minByTime x (y :: ys) = minByTime (if y.time < x.time then y else x) ys := rfl

theorem minByTime_mem (x : Slot) (xs : List Slot) :
    minByTime x xs ∈ x :: xs := by
  induction xs generalizing x with
  | nil => simp [minByTime]
  | cons y ys ih =>
    rw [minByTime_cons]
    by_cases hlt : y.time < x.time
    · rw [if_pos hlt]
      rcases List.mem_cons.mp (ih y) with h | h
      · rw [h]
        exact List.mem_cons.mpr (Or.inr (List.mem_cons_self y ys))
      · exact List.mem_cons.mpr (Or.inr (List.mem_cons.mpr (Or.inr h)))
    · rw [if_neg hlt]
      rcases List.mem_cons.mp (ih x) with h | h
      · rw [h]
        exact List.mem_cons_self x (y :: ys)
      · exact List.mem_cons.mpr (Or.inr (List.mem_cons.mpr (Or.inr h)))

theorem minByTime_le_head (x : Slot) (xs : List Slot) :
    (minByTime x xs).time ≤ x.time := by
  induction xs generalizing x with
  | nil => simp [minByTime]
  | cons y ys ih =>
    rw [minByTime_cons]
    by_cases hlt : y.time < x.time
    · calc (minByTime (if y.time < x.time then y else x) ys).time
          ≤ (if y.time < x.time then y else x).time := ih _
        _ ≤ x.time := by simp only [hlt, if_pos]; exact le_of_lt hlt
    · simp only [hlt, if_neg, not_false_iff]
      exact ih x

theorem minByTime_le (x : Slot) (xs : List Slot) :
    ∀ s ∈ xs, (minByTime x xs).time ≤ s.time := by
  induction xs generalizing x with
  | nil => intro s hs; simp at hs
  | cons y ys ih =>
    intro s hs
    rw [minByTime_cons]
    rcases List.mem_cons.mp hs with rfl | hs
    · calc (minByTime (if s.time < x.time then s else x) ys).time
          ≤ (if s.time < x.time then s else x).time := minByTime_le_head _ _
        _ ≤ s.time := by
            by_cases hlt : s.time < x.time
            · simp [hlt]
            · simp only [hlt, if_neg, not_false_iff]
              exact le_of_not_lt hlt
    · exact ih _ s hs

theorem earliestBy_eq_none {p : Slot → Bool} {l : List Slot} :
    earliestBy p l = none ↔ ∀ s ∈ l, p s = false := by
  unfold earliestBy
  rcases hf : l.filter p with _ | ⟨x, xs⟩
  · simp only [true_iff]
    intro s hs
    by_contra hps
    have : s ∈ l.filter p := List.mem_filter.mpr ⟨hs, by
      cases hp : p s with
      | false => exact absurd hp hps
      | true => rfl⟩
    rw [hf] at this
    exact absurd this (List.not_mem_nil s)
  · simp only [reduceCtorEq, false_iff, not_forall]
    have hx : x ∈ l.filter p := hf ▸ List.mem_cons_self x xs
    exact ⟨x, List.mem_of_mem_filter hx, by simp [List.of_mem_filter hx]⟩

theorem earliestBy_spec {p : Slot → Bool} {l : List Slot} {c : Slot}
    (h : earliestBy p l = some c) :
    c ∈ l ∧ p c = true ∧ ∀ s ∈ l, p s = true → c.time ≤ s.time := by
  unfold earliestBy at h
  rcases hf : l.filter p with _ | ⟨x, xs⟩
  · rw [hf] at h; exact absurd h (by simp)
  · rw [hf] at h
    have hc : c = minByTime x xs := by
      simpa using h.symm
    have hmem : c ∈ x :: xs := hc ▸ minByTime_mem x xs
    have hcf : c ∈ l.filter p := hf ▸ hmem
    refine ⟨List.mem_of_mem_filter hcf, List.of_mem_filter hcf, ?_⟩
    intro s hs hps
    have hsf : s ∈ l.filter p := List.mem_filter.mpr ⟨hs, hps⟩
    rw [hf] at hsf
    rcases List.mem_cons.mp hsf with heq | hsf
    · rw [heq]
      exact hc ▸ minByTime_le_head x xs
    · exact hc ▸ minByTime_le x xs s hsf

/-! ### Lemmas about `find?` under unique primary keys -/

/-- In a table whose ids are distinct, looking an element's id up in the
image of a row-wise, id-preserving rewrite finds exactly that element's
image. -/
theorem find?_map_of_nodup {f : Slot → Slot} (hf : ∀ t, (f t).id = t.id) :
    ∀ {l : List Slot}, (l.map Slot.id).Nodup → ∀ {s : Slot}, s ∈ l →
      (l.map f).find? (fun x => x.id == s.id) = some (f s) := by
  intro l
  induction l with
  | nil => intro _ s hs; exact absurd hs (List.not_mem_nil s)
  | cons a rest ih =>
    intro hnd s hs
    have hnd' : (rest.map Slot.id).Nodup := (List.nodup_cons.mp hnd).2
    have hna : a.id ∉ rest.map Slot.id := (List.nodup_cons.mp hnd).1
    rcases List.mem_cons.mp hs with rfl | hs
    · simp [List.find?_cons, hf]
    · have hne : a.id ≠ s.id := by
        intro hcontra
        exact hna (hcontra ▸ List.mem_map_of_mem Slot.id hs)
      have : ((f a).id == s.id) = false := by
        simp [hf, hne]
      simp only [List.map_cons, List.find?_cons, this]
      exact ih hnd' hs

theorem find?_of_nodup {l : List Slot} (hnd : (l.map Slot.id).Nodup)
    {s : Slot} (hs : s ∈ l) : l.find? (fun x => x.id == s.id) = some s := by
  have := find?_map_of_nodup (f := fun t => t) (fun _ => rfl) hnd hs
  simpa using this

/-- Distinct ids make the id function injective on the table's rows. -/
theorem id_injOn_of_nodup {l : List Slot} (hnd : (l.map Slot.id).Nodup)
    {x y : Slot} (hx : x ∈ l) (hy : y ∈ l) (hxy : x.id = y.id) : x = y :=
  List.inj_on_of_nodup_map hnd hx hy hxy

theorem updateSlot_eq_map (l : List Slot) (i : Nat) (f : Slot → Slot) :
    updateSlot l i f = l.map (fun s => if s.id = i then f s else s) := rfl

theorem applyBooking_id (uid : Nat) (uname : String) (now : Int) (auto : Bool)
    (s : Slot) : (applyBooking uid uname now auto s).id = s.id := rfl

/-! ### Full input/output specification of `_find_and_book_next_slot` -/

/-- What the shared reschedule operation does, for a booked old slot in a
table with distinct ids: the old slot ends up `no-show`; with no future
free same-service slot nothing else changes and no booking appears; with
one, the returned slot is a minimal-time candidate carrying the user's
booking data and the supplied `auto` flag. -/
theorem find_and_book_spec (slots : List Slot) (uid : Nat) (uname : String)
    (sid : Nat) (old : Slot) (auto : Bool) (now : Int)
    (hnd : (slots.map Slot.id).Nodup) (hmem : old ∈ slots)
    (hb : old.booked = true) :
    ((find_and_book_next_slot slots uid uname sid old auto now).fst.find?
        (fun x => x.id == old.id) = some { old with status := "no-show" }) ∧
    ((find_and_book_next_slot slots uid uname sid old auto now).snd = none →
      (∀ s ∈ slots, isCandidate sid now s = false) ∧
      (∀ s ∈ slots, s.id ≠ old.id →
        s ∈ (find_and_book_next_slot slots uid uname sid old auto now).fst) ∧
      (∀ s' ∈ (find_and_book_next_slot slots uid uname sid old auto now).fst,
        s'.booked = true → ∃ s ∈ slots, s.booked = true ∧ s'.id = s.id)) ∧
    (∀ ns, (find_and_book_next_slot slots uid uname sid old auto now).snd = some ns →
      ns ∈ (find_and_book_next_slot slots uid uname sid old auto now).fst ∧
      ns.booked = true ∧ ns.booked_by_id = some uid ∧
      ns.booked_by_name = some uname ∧ ns.booked_at = some now ∧
      ns.status = "booked" ∧ ns.auto_rescheduled = auto ∧
      ∃ s ∈ slots, isCandidate sid now s = true ∧
        ns = applyBooking uid uname now auto s ∧
        ∀ s2 ∈ slots, isCandidate sid now s2 = true → s.time ≤ s2.time) ∧
    ((∃ s ∈ slots, isCandidate sid now s = true) →
      ∃ ns, (find_and_book_next_slot slots uid uname sid old auto now).snd = some ns) := by
  cases hc : earliestBy (isCandidate sid now) slots with
  | none =>
    have hall := earliestBy_eq_none.mp hc
    have hR : find_and_book_next_slot slots uid uname sid old auto now
        = (updateSlot slots old.id (fun s => { s with status := "no-show" }), none) := by
      simp [find_and_book_next_slot, hc]
    rw [hR]
    refine ⟨?_, ?_, ?_, ?_⟩
    · rw [updateSlot_eq_map]
      have hfind := find?_map_of_nodup
        (f := fun s => if s.id = old.id then { s with status := "no-show" } else s)
        (fun t => by by_cases h : t.id = old.id <;> simp [h]) hnd hmem
      simpa using hfind
    · intro _
      refine ⟨hall, ?_, ?_⟩
      · intro s hs hne
        rw [updateSlot_eq_map]
        have himg : (if s.id = old.id then { s with status := "no-show" } else s) = s :=
          if_neg hne
        exact himg ▸ List.mem_map_of_mem _ hs
      · intro s' hs' hbs'
        rw [updateSlot_eq_map] at hs'
        obtain ⟨s, hs, himg⟩ := List.mem_map.mp hs'
        by_cases h : s.id = old.id
        · rw [if_pos h] at himg
          exact ⟨s, hs, by rw [← himg] at hbs'; exact hbs', by rw [← himg]⟩
        · rw [if_neg h] at himg
          exact ⟨s, hs, himg ▸ hbs', himg ▸ rfl⟩
    · intro ns hns
      simp at hns
    · rintro ⟨s, hs, hcand⟩
      rw [hall s hs] at hcand
      exact absurd hcand (by simp)
  | some cnd =>
    obtain ⟨hcmem, hcp, hcmin⟩ := earliestBy_spec hc
    have hcb : cnd.booked = false := by
      have h := hcp
      simp only [isCandidate, Bool.and_eq_true, decide_eq_true_eq] at h
      exact h.1.2
    have hcne : cnd.id ≠ old.id := by
      intro heq
      have : cnd = old := id_injOn_of_nodup hnd hcmem hmem heq
      rw [this, hb] at hcb
      exact absurd hcb (by simp)
    have hR : find_and_book_next_slot slots uid uname sid old auto now
        = (updateSlot (updateSlot slots old.id (fun s => { s with status := "no-show" }))
            cnd.id (applyBooking uid uname now auto),
           some (applyBooking uid uname now auto cnd)) := by
      simp [find_and_book_next_slot, hc, applyBooking_id]
    have hcomp : updateSlot (updateSlot slots old.id
          (fun s => { s with status := "no-show" }))
          cnd.id (applyBooking uid uname now auto)
        = slots.map (fun s =>
            if (if s.id = old.id then { s with status := "no-show" } else s).id = cnd.id
            then applyBooking uid uname now auto
              (if s.id = old.id then { s with status := "no-show" } else s)
            else (if s.id = old.id then { s with status := "no-show" } else s)) := by
      rw [updateSlot_eq_map, updateSlot_eq_map, List.map_map]
      rfl
    rw [hR]
    refine ⟨?_, ?_, ?_, ?_⟩
    · rw [hcomp]
      have hfind := find?_map_of_nodup
        (f := fun s =>
          if (if s.id = old.id then { s with status := "no-show" } else s).id = cnd.id
          then applyBooking uid uname now auto
            (if s.id = old.id then { s with status := "no-show" } else s)
          else (if s.id = old.id then { s with status := "no-show" } else s))
        (fun t => by
          dsimp only
          split <;> (try split) <;> rfl) hnd hmem
      simpa [Ne.symm hcne] using hfind
    · intro hcontra
      simp at hcontra
    · intro ns hns
      have hns' : ns = applyBooking uid uname now auto cnd := by
        simpa using hns.symm
      subst hns'
      refine ⟨?_, ?_, ?_, ?_, ?_, ?_, ?_, cnd, hcmem, hcp, rfl, hcmin⟩
      · rw [hcomp]
        have himg : (fun s =>
            if (if s.id = old.id then { s with status := "no-show" } else s).id = cnd.id
            then applyBooking uid uname now auto
              (if s.id = old.id then { s with status := "no-show" } else s)
            else (if s.id = old.id then { s with status := "no-show" } else s)) cnd
            = applyBooking uid uname now auto cnd := by
          simp [hcne]
        exact himg ▸ List.mem_map_of_mem _ hcmem
      all_goals simp [applyBooking]
    · intro _
      exact ⟨applyBooking uid uname now auto cnd, rfl⟩

/-- C1: the shared reschedule operation `_find_and_book_next_slot`, given a
(booked) old slot, a user and a boolean `auto` flag, in a slot table with
distinct primary keys: it marks the old slot's status `no-show`
unconditionally; if no unbooked slot of the same service with time
strictly after `now` exists it creates no new booking and returns nothing;
if one exists it returns a minimal-time such slot with `booked = true`,
`booked_by_id`/`booked_by_name` the given user's id and name,
`booked_at = now`, `status = "booked"` and `auto_rescheduled` equal to the
supplied flag. -/
theorem C1_reschedule_operation (slots : List Slot) (uid : Nat)
    (uname : String) (sid : Nat) (old : Slot) (auto : Bool) (now : Int)
    (hnd : (slots.map Slot.id).Nodup) (hmem : old ∈ slots)
    (hb : old.booked = true) :
    ((find_and_book_next_slot slots uid uname sid old auto now).fst.find?
        (fun x => x.id == old.id) = some { old with status := "no-show" }) ∧
    ((find_and_book_next_slot slots uid uname sid old auto now).snd = none →
      (∀ s ∈ slots, isCandidate sid now s = false) ∧
      (∀ s ∈ slots, s.id ≠ old.id →
        s ∈ (find_and_book_next_slot slots uid uname sid old auto now).fst) ∧
      (∀ s' ∈ (find_and_book_next_slot slots uid uname sid old auto now).fst,
        s'.booked = true → ∃ s ∈ slots, s.booked = true ∧ s'.id = s.id)) ∧
    (∀ ns, (find_and_book_next_slot slots uid uname sid old auto now).snd = some ns →
      ns ∈ (find_and_book_next_slot slots uid uname sid old auto now).fst ∧
      ns.booked = true ∧ ns.booked_by_id = some uid ∧
      ns.booked_by_name = some uname ∧ ns.booked_at = some now ∧
      ns.status = "booked" ∧ ns.auto_rescheduled = auto ∧
      ∃ s ∈ slots, isCandidate sid now s = true ∧
        ns = applyBooking uid uname now auto s ∧
        ∀ s2 ∈ slots, isCandidate sid now s2 = true → s.time ≤ s2.time) ∧
    ((∃ s ∈ slots, isCandidate sid now s = true) →
      ∃ ns, (find_and_book_next_slot slots uid uname sid old auto now).snd = some ns) :=
  find_and_book_spec slots uid uname sid old auto now hnd hmem hb

/-- Concrete instance of C1: a booked slot at time 100 misses; of the two
free slots at times 300 and 200 the one at 200 is booked for the same
user, and the old slot ends up `no-show`. -/
theorem C1_reschedule_operation_witness :
    (((List.map Slot.id
        [⟨1, 1, 100, true, some 5, some "Bob", some 50, "booked", false, false⟩,
         ⟨2, 1, 300, false, none, none, none, "available", false, false⟩,
         ⟨3, 1, 200, false, none, none, none, "available", false, false⟩]).Nodup) ∧
      (⟨1, 1, 100, true, some 5, some "Bob", some 50, "booked", false, false⟩ : Slot).booked = true) ∧
    (find_and_book_next_slot
        [⟨1, 1, 100, true, some 5, some "Bob", some 50, "booked", false, false⟩,
         ⟨2, 1, 300, false, none, none, none, "available", false, false⟩,
         ⟨3, 1, 200, false, none, none, none, "available", false, false⟩]
        5 "Bob" 1
        ⟨1, 1, 100, true, some 5, some "Bob", some 50, "booked", false, false⟩
        false 150).fst.find?
      (fun x => x.id == (1 : Nat)) =
      some ⟨1, 1, 100, true, some 5, some "Bob", some 50, "no-show", false, false⟩ :=
  ⟨⟨by decide, by decide⟩,
    (C1_reschedule_operation
      [⟨1, 1, 100, true, some 5, some "Bob", some 50, "booked", false, false⟩,
       ⟨2, 1, 300, false, none, none, none, "available", false, false⟩,
       ⟨3, 1, 200, false, none, none, none, "available", false, false⟩]
      5 "Bob" 1
      ⟨1, 1, 100, true, some 5, some "Bob", some 50, "booked", false, false⟩
      false 150 (by decide) (by decide) (by decide)).1⟩

/-- C9: the manual find-next-slot endpoint checks only that the slot
exists with `booked_by_id` equal to the caller — no status or timing
check: whatever the slot's current status (e.g. `"arrived"` or
`"no-show"`), the request succeeds, the slot's status is overwritten to
`"no-show"`, and if an unbooked strictly-future slot of the same service
exists, one is booked for the caller. -/
theorem C9_manual_reschedule_ignores_status (db : DB) (uid : Nat)
    (uname : String) (slotId : Nat) (now : Int) (old : Slot)
    (hnd : (db.slots.map Slot.id).Nodup) (hmem : old ∈ db.slots)
    (hid : old.id = slotId) (hby : old.booked_by_id = some uid)
    (hb : old.booked = true) :
    (∃ r, (api_find_next_slot db uid uname slotId now).snd = .ok r) ∧
    ((api_find_next_slot db uid uname slotId now).fst.slots.find?
        (fun x => x.id == old.id) = some { old with status := "no-show" }) ∧
    ((∃ s ∈ db.slots, isCandidate old.service_id now s = true) →
      ∃ ns, (api_find_next_slot db uid uname slotId now).snd = .ok (some ns) ∧
        ns.booked = true ∧ ns.booked_by_id = some uid ∧ ns.status = "booked" ∧
        ns ∈ (api_find_next_slot db uid uname slotId now).fst.slots) := by
  have hpold : (fun s : Slot => s.id == slotId && s.booked_by_id == some uid) old
      = true := by
    simp [hid, hby]
  have hsome : (db.slots.find?
      (fun s => s.id == slotId && s.booked_by_id == some uid)).isSome :=
    List.find?_isSome.mpr ⟨old, hmem, hpold⟩
  obtain ⟨t, ht⟩ := Option.isSome_iff_exists.mp hsome
  have htmem : t ∈ db.slots := List.mem_of_find?_eq_some ht
  have htp := List.find?_some ht
  have htid : t.id = slotId := by
    simp only [Bool.and_eq_true, beq_iff_eq] at htp
    exact htp.1
  have hteq : t = old := id_injOn_of_nodup hnd htmem hmem (htid.trans hid.symm)
  subst hteq
  have hfind : api_find_next_slot db uid uname slotId now =
      ({ db with slots := (find_and_book_next_slot db.slots uid uname
          t.service_id t false now).fst },
       .ok (find_and_book_next_slot db.slots uid uname
          t.service_id t false now).snd) := by
    simp [api_find_next_slot, ht]
  obtain ⟨h1, _, h3, h4⟩ :=
    find_and_book_spec db.slots uid uname t.service_id t false now hnd hmem hb
  rw [hfind]
  refine ⟨⟨_, rfl⟩, h1, ?_⟩
  intro hex
  obtain ⟨ns, hns⟩ := h4 hex
  obtain ⟨hmemns, hbk, hbyid, _, _, hst, _, _⟩ := h3 ns hns
  exact ⟨ns, by rw [hns], hbk, hbyid, hst, hmemns⟩

/-- Concrete instance of C9: a slot already marked `"arrived"` is
rescheduled anyway — the endpoint succeeds and the slot becomes
`no-show`. -/
theorem C9_manual_reschedule_ignores_status_witness :
    (∃ r, (api_find_next_slot
        ⟨[], [⟨1, 10, "Clinic", "dentist", none, none, "addr"⟩],
         [⟨1, 1, 100, true, some 5, some "Bob", some 50, "arrived", false, true⟩,
          ⟨2, 1, 300, false, none, none, none, "available", false, false⟩]⟩
        5 "Bob" 1 150).snd = .ok r) ∧
    ((api_find_next_slot
        ⟨[], [⟨1, 10, "Clinic", "dentist", none, none, "addr"⟩],
         [⟨1, 1, 100, true, some 5, some "Bob", some 50, "arrived", false, true⟩,
          ⟨2, 1, 300, false, none, none, none, "available", false, false⟩]⟩
        5 "Bob" 1 150).fst.slots.find? (fun x => x.id == (1 : Nat)) =
      some ⟨1, 1, 100, true, some 5, some "Bob", some 50, "no-show", false, true⟩) := by
  have h := C9_manual_reschedule_ignores_status
    ⟨[], [⟨1, 10, "Clinic", "dentist", none, none, "addr"⟩],
     [⟨1, 1, 100, true, some 5, some "Bob", some 50, "arrived", false, true⟩,
      ⟨2, 1, 300, false, none, none, none, "available", false, false⟩]⟩
    5 "Bob" 1 150
    ⟨1, 1, 100, true, some 5, some "Bob", some 50, "arrived", false, true⟩
    (by decide) (by decide) (by decide) (by decide) (by decide)
  exact ⟨h.1, h.2.1⟩

/-! ### Booking a slot (`api_book_slot`) -/

/-- Successful booking: with a present, unbooked slot of the requested id,
the endpoint returns the slot re-written with the caller's booking data,
and rewrites exactly that row. -/
theorem book_slot_success (db : DB) (uid : Nat) (uname : String) (sid : Nat)
    (now : Int) (hnd : (db.slots.map Slot.id).Nodup) {slot : Slot}
    (hmem : slot ∈ db.slots) (hid : slot.id = sid) (h0 : sid ≠ 0)
    (hunb : slot.booked = false) :
    (api_book_slot db uid uname (some sid) now).snd = .ok
      (bookFields uid uname now slot) ∧
    (api_book_slot db uid uname (some sid) now).fst.slots.find?
      (fun x => x.id == sid) = some (bookFields uid uname now slot) ∧
    (∀ t ∈ db.slots, t.id ≠ sid →
      t ∈ (api_book_slot db uid uname (some sid) now).fst.slots) := by
  subst hid
  have hf : db.slots.find? (fun s => s.id == slot.id) = some slot :=
    find?_of_nodup hnd hmem
  have hstep : api_book_slot db uid uname (some slot.id) now =
      ({ db with slots := updateSlot db.slots slot.id (bookFields uid uname now) },
       .ok (bookFields uid uname now slot)) := by
    simp [api_book_slot, h0, hf, hunb]
  rw [hstep]
  refine ⟨rfl, ?_, ?_⟩
  · rw [updateSlot_eq_map]
    have hfind := find?_map_of_nodup
      (f := fun s => if s.id = slot.id then bookFields uid uname now s else s)
      (fun t => by by_cases h : t.id = slot.id <;> simp [h, bookFields]) hnd hmem
    simpa using hfind
  · intro t ht hne
    rw [updateSlot_eq_map]
    have himg : (if t.id = slot.id then bookFields uid uname now t else t) = t :=
      if_neg hne
    exact himg ▸ List.mem_map_of_mem _ ht

/-- C5: booking a slot fails with 400 and leaves the database unchanged
exactly when no unbooked slot with the requested id exists; otherwise it
succeeds and rewrites that slot with `booked = true`, the caller's id,
`booked_at = now` and `status = "booked"`.  (Primary keys are positive
and distinct.) -/
theorem C5_book_slot_availability (db : DB) (uid : Nat) (uname : String)
    (sid : Nat) (now : Int) (hnz : ∀ s ∈ db.slots, s.id ≠ 0)
    (hnd : (db.slots.map Slot.id).Nodup) :
    (((∃ e, (api_book_slot db uid uname (some sid) now).snd = .error e ∧
         e.code = 400) ∧
       (api_book_slot db uid uname (some sid) now).fst = db) ↔
      ¬ ∃ s ∈ db.slots, s.id = sid ∧ s.booked = false) ∧
    (∀ s ∈ db.slots, s.id = sid → s.booked = false →
      ∃ r, (api_book_slot db uid uname (some sid) now).snd = .ok r ∧
        r.id = sid ∧ r.booked = true ∧ r.booked_by_id = some uid ∧
        r.booked_at = some now ∧ r.status = "booked" ∧
        (api_book_slot db uid uname (some sid) now).fst.slots.find?
          (fun x => x.id == sid) = some r ∧
        ∀ t ∈ db.slots, t.id ≠ sid →
          t ∈ (api_book_slot db uid uname (some sid) now).fst.slots) := by
  by_cases h0 : sid = 0
  · subst h0
    have hstep : api_book_slot db uid uname (some 0) now =
        (db, .error ⟨400, "slot_id is required"⟩) := by
      simp [api_book_slot]
    rw [hstep]
    constructor
    · constructor
      · rintro - ⟨s, hs, hsid, -⟩
        exact hnz s hs hsid
      · intro _
        exact ⟨⟨⟨400, "slot_id is required"⟩, rfl, rfl⟩, rfl⟩
    · intro s hs hsid _
      exact absurd hsid (hnz s hs)
  · cases hf : db.slots.find? (fun s => s.id == sid) with
    | none =>
      have hnone := List.find?_eq_none.mp hf
      have hstep : api_book_slot db uid uname (some sid) now =
          (db, .error ⟨400, "Slot not available"⟩) := by
        simp [api_book_slot, h0, hf]
      rw [hstep]
      constructor
      · constructor
        · rintro - ⟨s, hs, hsid, -⟩
          exact absurd (by simp [hsid] : (s.id == sid) = true)
            (by simpa using hnone s hs)
        · intro _
          exact ⟨⟨⟨400, "Slot not available"⟩, rfl, rfl⟩, rfl⟩
      · intro s hs hsid _
        exact absurd (by simp [hsid] : (s.id == sid) = true)
          (by simpa using hnone s hs)
    | some slot =>
      have hslotid : slot.id = sid := by
        have := List.find?_some hf
        simpa using this
      have hslotmem : slot ∈ db.slots := List.mem_of_find?_eq_some hf
      by_cases hb : slot.booked
      · have hstep : api_book_slot db uid uname (some sid) now =
            (db, .error ⟨400, "Slot not available"⟩) := by
          simp [api_book_slot, h0, hf, hb]
        rw [hstep]
        have hcontra : ∀ s ∈ db.slots, s.id = sid → s.booked = false → False := by
          intro s hs hsid hsunb
          have : s = slot := id_injOn_of_nodup hnd hs hslotmem
            (hsid.trans hslotid.symm)
          rw [this, hb] at hsunb
          exact absurd hsunb (by simp)
        constructor
        · constructor
          · rintro - ⟨s, hs, hsid, hsunb⟩
            exact hcontra s hs hsid hsunb
          · intro _
            exact ⟨⟨⟨400, "Slot not available"⟩, rfl, rfl⟩, rfl⟩
        · intro s hs hsid hsunb
          exact absurd (hcontra s hs hsid hsunb) not_false
      · have hunb : slot.booked = false := by simpa using hb
        obtain ⟨hok, hfind, hrest⟩ :=
          book_slot_success db uid uname sid now hnd hslotmem hslotid h0 hunb
        constructor
        · constructor
          · rintro ⟨⟨e, he, -⟩, -⟩
            rw [hok] at he
            exact absurd he (by simp)
          · intro hno
            exact absurd ⟨slot, hslotmem, hslotid, hunb⟩ hno
        · intro s hs hsid hsunb
          refine ⟨_, hok, ?_, rfl, rfl, rfl, rfl, hfind, hrest⟩
          simpa using hslotid

/-- Concrete instance of C5: booking an already-booked slot fails with 400
and changes nothing. -/
theorem C5_book_slot_availability_witness :
    (∃ e, (api_book_slot
        ⟨[], [], [⟨1, 1, 100, true, some 5, some "Bob", some 50, "booked", false, false⟩]⟩
        7 "Eve" (some 1) 150).snd = .error e ∧ e.code = 400) ∧
    (api_book_slot
        ⟨[], [], [⟨1, 1, 100, true, some 5, some "Bob", some 50, "booked", false, false⟩]⟩
        7 "Eve" (some 1) 150).fst =
      ⟨[], [], [⟨1, 1, 100, true, some 5, some "Bob", some 50, "booked", false, false⟩]⟩ :=
  ((C5_book_slot_availability
      ⟨[], [], [⟨1, 1, 100, true, some 5, some "Bob", some 50, "booked", false, false⟩]⟩
      7 "Eve" 1 150 (by decide) (by decide)).1).mpr (by decide)

/-- C8: booking performs no check on the slot's scheduled time — an
existing unbooked slot whose time is already in the past is still booked
for the caller. -/
theorem C8_book_past_slot (db : DB) (uid : Nat) (uname : String) (sid : Nat)
    (now : Int) (slot : Slot) (hnd : (db.slots.map Slot.id).Nodup)
    (hmem : slot ∈ db.slots) (hid : slot.id = sid) (h0 : sid ≠ 0)
    (hunb : slot.booked = false) (hpast : slot.time < now) :
    ∃ r, (api_book_slot db uid uname (some sid) now).snd = .ok r ∧
      r.booked = true ∧ r.booked_by_id = some uid ∧ r.status = "booked" := by
  obtain ⟨hok, -, -⟩ := book_slot_success db uid uname sid now hnd hmem hid h0 hunb
  exact ⟨_, hok, rfl, rfl, rfl⟩

/-- Concrete instance of C8: a free slot at time 100 is booked at time 150
without complaint. -/
theorem C8_book_past_slot_witness :
    ∃ r, (api_book_slot
        ⟨[], [], [⟨1, 1, 100, false, none, none, none, "available", false, false⟩]⟩
        7 "Eve" (some 1) 150).snd = .ok r ∧
      r.booked = true ∧ r.booked_by_id = some 7 ∧ r.status = "booked" :=
  C8_book_past_slot
    ⟨[], [], [⟨1, 1, 100, false, none, none, none, "available", false, false⟩]⟩
    7 "Eve" 1 150
    ⟨1, 1, 100, false, none, none, none, "available", false, false⟩
    (by decide) (by decide) (by decide) (by decide) (by decide) (by decide)

/-! ### Slot creation, service deletion, registration -/

/-- C6: creating a slot on an owned service fails with 400 (database
unchanged) when the timestamp is malformed or not strictly in the future;
otherwise a new slot with the given time is appended, unbooked and
`"available"`. -/
theorem C6_create_slot_validation (db : DB) (adminId serviceId : Nat)
    (now : Int) (newId : Nat)
    (hsvc : ∃ sv ∈ db.services, sv.id = serviceId ∧ sv.admin_id = adminId) :
    (api_admin_create_slot db adminId serviceId .malformed now newId
      = (db, .error ⟨400, "Invalid time format"⟩)) ∧
    (∀ t : Int, t ≤ now →
      api_admin_create_slot db adminId serviceId (.valid t) now newId
        = (db, .error ⟨400, "Cannot add a slot in the past"⟩)) ∧
    (∀ t : Int, now < t →
      ∃ slot, (api_admin_create_slot db adminId serviceId (.valid t) now newId).snd
          = .ok slot ∧
        slot.time = t ∧ slot.booked = false ∧ slot.booked_by_id = none ∧
        slot.status = "available" ∧
        (api_admin_create_slot db adminId serviceId (.valid t) now newId).fst.slots
          = db.slots ++ [slot] ∧
        (api_admin_create_slot db adminId serviceId (.valid t) now newId).fst.services
          = db.services) := by
  obtain ⟨sv, hmem, h1, h2⟩ := hsvc
  have hsome : (db.services.find?
      (fun s => s.id == serviceId && s.admin_id == adminId)).isSome :=
    List.find?_isSome.mpr ⟨sv, hmem, by simp [h1, h2]⟩
  obtain ⟨svc, hf⟩ := Option.isSome_iff_exists.mp hsome
  refine ⟨?_, ?_, ?_⟩
  · simp [api_admin_create_slot, hf]
  · intro t ht
    simp [api_admin_create_slot, hf, ht]
  · intro t ht
    have hnle : ¬ t ≤ now := not_le.mpr ht
    refine ⟨⟨newId, svc.id, t, false, none, none, none, "available", false, false⟩,
      ?_, rfl, rfl, rfl, rfl, ?_, ?_⟩ <;>
      simp [api_admin_create_slot, hf, hnle]

/-- Concrete instance of C6: with an owned service, a past timestamp is
rejected with 400 and the database is unchanged. -/
theorem C6_create_slot_validation_witness :
    api_admin_create_slot
      ⟨[], [⟨1, 10, "Clinic", "dentist", none, none, "addr"⟩], []⟩
      10 1 (.valid 100) 150 7
      = (⟨[], [⟨1, 10, "Clinic", "dentist", none, none, "addr"⟩], []⟩,
         .error ⟨400, "Cannot add a slot in the past"⟩) :=
  (C6_create_slot_validation
    ⟨[], [⟨1, 10, "Clinic", "dentist", none, none, "addr"⟩], []⟩
    10 1 150 7
    ⟨⟨1, 10, "Clinic", "dentist", none, none, "addr"⟩, by decide, rfl, rfl⟩).2.1
    100 (by decide)

/-- C7: deleting a service fails with 404 and changes nothing when the
caller owns no service of that id; otherwise the service and exactly its
slots are removed in one step and no remaining slot references it. -/
theorem C7_delete_service_cascade (db : DB) (adminId serviceId : Nat) :
    ((¬ ∃ sv ∈ db.services, sv.id = serviceId ∧ sv.admin_id = adminId) →
      api_admin_delete_service db adminId serviceId
        = (db, .error ⟨404, "Service not found"⟩)) ∧
    ((∃ sv ∈ db.services, sv.id = serviceId ∧ sv.admin_id = adminId) →
      (api_admin_delete_service db adminId serviceId).snd = .ok () ∧
      (∀ sl ∈ (api_admin_delete_service db adminId serviceId).fst.slots,
        sl ∈ db.slots ∧ sl.service_id ≠ serviceId) ∧
      (∀ sl ∈ db.slots, sl.service_id ≠ serviceId →
        sl ∈ (api_admin_delete_service db adminId serviceId).fst.slots) ∧
      (∀ sv ∈ (api_admin_delete_service db adminId serviceId).fst.services,
        sv ∈ db.services ∧ sv.id ≠ serviceId) ∧
      (∀ sv ∈ db.services, sv.id ≠ serviceId →
        sv ∈ (api_admin_delete_service db adminId serviceId).fst.services) ∧
      (api_admin_delete_service db adminId serviceId).fst.users = db.users) := by
  constructor
  · intro hno
    have hf : db.services.find?
        (fun s => s.id == serviceId && s.admin_id == adminId) = none := by
      apply List.find?_eq_none.mpr
      intro sv hsv
      simp only [Bool.and_eq_true, beq_iff_eq, not_and]
      intro h1 h2
      exact hno ⟨sv, hsv, h1, h2⟩
    simp [api_admin_delete_service, hf]
  · rintro ⟨sv, hmem, h1, h2⟩
    have hsome : (db.services.find?
        (fun s => s.id == serviceId && s.admin_id == adminId)).isSome :=
      List.find?_isSome.mpr ⟨sv, hmem, by simp [h1, h2]⟩
    obtain ⟨svc, hf⟩ := Option.isSome_iff_exists.mp hsome
    have hsvcid : svc.id = serviceId := by
      have := List.find?_some hf
      simp only [Bool.and_eq_true, beq_iff_eq] at this
      exact this.1
    have hstep : api_admin_delete_service db adminId serviceId =
        ({ db with
            slots := db.slots.filter (fun sl => !(sl.service_id == svc.id)),
            services := db.services.filter (fun s => !(s.id == svc.id)) },
         .ok ()) := by
      simp [api_admin_delete_service, hf]
    rw [hstep]
    refine ⟨rfl, ?_, ?_, ?_, ?_, rfl⟩
    · intro sl hsl
      have := List.mem_filter.mp hsl
      refine ⟨this.1, ?_⟩
      have hb := this.2
      simp only [Bool.not_eq_true', beq_eq_false_iff_ne, ne_eq] at hb
      rw [hsvcid] at hb
      exact hb
    · intro sl hsl hne
      apply List.mem_filter.mpr
      refine ⟨hsl, ?_⟩
      simp only [Bool.not_eq_true', beq_eq_false_iff_ne, ne_eq]
      rw [hsvcid]
      exact hne
    · intro s hs
      have := List.mem_filter.mp hs
      refine ⟨this.1, ?_⟩
      have hb := this.2
      simp only [Bool.not_eq_true', beq_eq_false_iff_ne, ne_eq] at hb
      rw [hsvcid] at hb
      exact hb
    · intro s hs hne
      apply List.mem_filter.mpr
      refine ⟨hs, ?_⟩
      simp only [Bool.not_eq_true', beq_eq_false_iff_ne, ne_eq]
      rw [hsvcid]
      exact hne

/-- Concrete instance of C7: deleting an owned service removes its slot
and the service; an unrelated service's slot survives. -/
theorem C7_delete_service_cascade_witness :
    (api_admin_delete_service
      ⟨[], [⟨1, 10, "Clinic", "dentist", none, none, "addr"⟩,
            ⟨2, 10, "Spa", "spa", none, none, "addr2"⟩],
       [⟨1, 1, 100, false, none, none, none, "available", false, false⟩,
        ⟨2, 2, 200, false, none, none, none, "available", false, false⟩]⟩
      10 1).snd = .ok () ∧
    ∀ sl ∈ (api_admin_delete_service
      ⟨[], [⟨1, 10, "Clinic", "dentist", none, none, "addr"⟩,
            ⟨2, 10, "Spa", "spa", none, none, "addr2"⟩],
       [⟨1, 1, 100, false, none, none, none, "available", false, false⟩,
        ⟨2, 2, 200, false, none, none, none, "available", false, false⟩]⟩
      10 1).fst.slots, sl.service_id ≠ 1 := by
  have h := (C7_delete_service_cascade
    ⟨[], [⟨1, 10, "Clinic", "dentist", none, none, "addr"⟩,
          ⟨2, 10, "Spa", "spa", none, none, "addr2"⟩],
     [⟨1, 1, 100, false, none, none, none, "available", false, false⟩,
      ⟨2, 2, 200, false, none, none, none, "available", false, false⟩]⟩
    10 1).2 ⟨⟨1, 10, "Clinic", "dentist", none, none, "addr"⟩, by decide, rfl, rfl⟩
  exact ⟨h.1, fun sl hsl => (h.2.1 sl hsl).2⟩

/-- C10: the open registration endpoint takes the account role straight
from the request: `role="admin"` yields an admin account, and any value
other than `"user"`/`"admin"` is coerced to `"user"`. -/
theorem C10_register_role_from_client (db : DB)
    (name email password phone place : String) (newId : Nat)
    (hash : String) (hname : name ≠ "") (hemail : email ≠ "")
    (hpw : password ≠ "") (hphone : phone ≠ "") (hplace : place ≠ "")
    (hfresh : ∀ u ∈ db.users, u.email ≠ email) :
    (∃ u, (api_register db name email password phone place
        (some "admin") newId hash).snd = .ok u ∧ u.role = "admin" ∧
      u ∈ (api_register db name email password phone place
        (some "admin") newId hash).fst.users) ∧
    (∀ r : String, r ≠ "user" → r ≠ "admin" →
      ∃ u, (api_register db name email password phone place
        (some r) newId hash).snd = .ok u ∧ u.role = "user") := by
  have hval : ¬ (name = "" ∨ email = "" ∨ password = ""
      ∨ phone = "" ∨ place = "") := by
    push_neg
    exact ⟨hname, hemail, hpw, hphone, hplace⟩
  have hfindnone : db.users.find? (fun u => u.email == email) = none := by
    apply List.find?_eq_none.mpr
    intro u hu
    simpa using hfresh u hu
  constructor
  · refine ⟨⟨newId, name, email, hash, phone, place, "admin"⟩, ?_, rfl, ?_⟩ <;>
      simp [api_register, hval, hfindnone]
  · intro r hru hra
    by_cases hr0 : r = ""
    · subst hr0
      refine ⟨⟨newId, name, email, hash, phone, place, "user"⟩, ?_, rfl⟩
      simp [api_register, hval, hfindnone]
    · refine ⟨⟨newId, name, email, hash, phone, place, "user"⟩, ?_, rfl⟩
      simp [api_register, hval, hfindnone, hr0, hru, hra]

/-- Concrete instance of C10: registering with `role="admin"` creates an
admin account. -/
theorem C10_register_role_from_client_witness :
    ∃ u, (api_register ⟨[], [], []⟩ "Mallory" "m@x.com" "pw" "123" "Town"
        (some "admin") 1 "HASH").snd = .ok u ∧ u.role = "admin" ∧
      u ∈ (api_register ⟨[], [], []⟩ "Mallory" "m@x.com" "pw" "123" "Town"
        (some "admin") 1 "HASH").fst.users :=
  (C10_register_role_from_client ⟨[], [], []⟩ "Mallory" "m@x.com" "pw" "123"
    "Town" 1 "HASH" (by decide) (by decide) (by decide) (by decide) (by decide)
    (by intro u hu; exact absurd hu (List.not_mem_nil u))).1

/-! ### The booked ↔ booker invariant (C4) -/

/-- The data-model invariant: a slot is booked exactly when it records a
booker id. -/
def slotInv (s : Slot) : Prop := s.booked = true ↔ s.booked_by_id ≠ none

instance (s : Slot) : Decidable (slotInv s) := by
  unfold slotInv
  infer_instance

/-- The invariant over the whole slots table. -/
def bookedInv (db : DB) : Prop := ∀ s ∈ db.slots, slotInv s

instance (db : DB) : Decidable (bookedInv db) := by
  unfold bookedInv
  infer_instance

theorem slotInv_of_fields {f : Slot → Slot}
    (hb : ∀ s, (f s).booked = s.booked)
    (hid : ∀ s, (f s).booked_by_id = s.booked_by_id)
    {s : Slot} (h : slotInv s) : slotInv (f s) := by
  unfold slotInv at h ⊢
  rw [hb, hid]
  exact h

theorem slotInv_applyBooking (uid : Nat) (uname : String) (now : Int)
    (auto : Bool) (s : Slot) : slotInv (applyBooking uid uname now auto s) := by
  simp [slotInv, applyBooking]

theorem slotInv_bookFields (uid : Nat) (uname : String) (now : Int)
    (s : Slot) : slotInv (bookFields uid uname now s) := by
  simp [slotInv, bookFields]

theorem slotsInv_map {l : List Slot} {f : Slot → Slot}
    (h : ∀ s ∈ l, slotInv s) (hf : ∀ s, slotInv s → slotInv (f s)) :
    ∀ s ∈ l.map f, slotInv s := by
  intro s hs
  obtain ⟨t, ht, rfl⟩ := List.mem_map.mp hs
  exact hf t (h t ht)

theorem slotsInv_updateSlot {l : List Slot} {i : Nat} {f : Slot → Slot}
    (h : ∀ s ∈ l, slotInv s) (hf : ∀ s, slotInv s → slotInv (f s)) :
    ∀ s ∈ updateSlot l i f, slotInv s := by
  rw [updateSlot_eq_map]
  apply slotsInv_map h
  intro s hs
  by_cases hi : s.id = i
  · rw [if_pos hi]
    exact hf s hs
  · rwa [if_neg hi]

theorem slotsInv_filter {l : List Slot} {p : Slot → Bool}
    (h : ∀ s ∈ l, slotInv s) : ∀ s ∈ l.filter p, slotInv s := by
  intro s hs
  exact h s (List.mem_of_mem_filter hs)

theorem find_and_book_inv (slots : List Slot) (uid : Nat) (uname : String)
    (sid : Nat) (old : Slot) (auto : Bool) (now : Int)
    (h : ∀ s ∈ slots, slotInv s) :
    ∀ s ∈ (find_and_book_next_slot slots uid uname sid old auto now).fst,
      slotInv s := by
  unfold find_and_book_next_slot
  cases hc : earliestBy (isCandidate sid now) slots with
  | none =>
    simp only [hc]
    exact slotsInv_updateSlot h
      (fun s hs => slotInv_of_fields (fun _ => rfl) (fun _ => rfl) hs)
  | some ns =>
    simp only [hc]
    apply slotsInv_updateSlot
    · exact slotsInv_updateSlot h
        (fun s hs => slotInv_of_fields (fun _ => rfl) (fun _ => rfl) hs)
    · intro s _
      exact slotInv_applyBooking uid uname now auto s

theorem list_user_bookings_inv (db : DB) (uid : Nat) (uname : String)
    (now : Int) (h : bookedInv db) :
    ∀ s ∈ (api_list_user_bookings db uid uname now).fst.slots, slotInv s := by
  unfold api_list_user_bookings
  have hmark : ∀ s ∈ markSecondMisses db.services uid now db.slots, slotInv s := by
    unfold markSecondMisses
    apply slotsInv_map h
    intro s hs
    by_cases hc : (hasService db.services s && isSecondMiss uid now s) = true
    · rw [if_pos hc]
      exact slotInv_of_fields (fun _ => rfl) (fun _ => rfl) hs
    · rwa [if_neg hc]
  cases hc : missedCandidate db.services uid now
      (markSecondMisses db.services uid now db.slots) with
  | none => simpa [hc] using hmark
  | some c =>
    simp only [hc]
    exact find_and_book_inv _ uid uname c.service_id c true now hmark

/-- C4: the invariant "`booked = true` iff `booked_by_id` is non-null" is
preserved by every operation that touches the slots table: slot creation
starts slots unbooked with no booker; booking and rescheduling set both
fields together; marking `no-show` or `arrived` and the delete operations
change neither field. -/
theorem C4_booked_iff_booker (db : DB) (uid adminId serviceId slotId newId : Nat)
    (uname : String) (slotIdOpt : Option Nat) (tf : TimeField) (now : Int)
    (auto : Bool) (hinv : bookedInv db) :
    bookedInv (api_admin_create_slot db adminId serviceId tf now newId).fst ∧
    bookedInv (api_book_slot db uid uname slotIdOpt now).fst ∧
    bookedInv (api_list_user_bookings db uid uname now).fst ∧
    bookedInv (api_mark_arrived db uid slotId).fst ∧
    bookedInv (api_admin_mark_arrived db slotId).fst ∧
    bookedInv (api_find_next_slot db uid uname slotId now).fst ∧
    bookedInv (api_admin_delete_slot db adminId serviceId slotId).fst ∧
    bookedInv (api_admin_delete_service db adminId serviceId).fst ∧
    (∀ s : Slot, (bookFields uid uname now s).booked = true ∧
      (bookFields uid uname now s).booked_by_id = some uid) ∧
    (∀ s : Slot, (applyBooking uid uname now auto s).booked = true ∧
      (applyBooking uid uname now auto s).booked_by_id = some uid) := by
  refine ⟨?_, ?_, ?_, ?_, ?_, ?_, ?_, ?_, ?_, ?_⟩
  · -- create slot
    cases hf : db.services.find?
        (fun s => s.id == serviceId && s.admin_id == adminId) with
    | none =>
      have hstep : (api_admin_create_slot db adminId serviceId tf now newId).fst
          = db := by simp [api_admin_create_slot, hf]
      rw [hstep]; exact hinv
    | some svc =>
      cases tf with
      | missing =>
        have hstep : (api_admin_create_slot db adminId serviceId .missing now
            newId).fst = db := by simp [api_admin_create_slot, hf]
        rw [hstep]; exact hinv
      | malformed =>
        have hstep : (api_admin_create_slot db adminId serviceId .malformed now
            newId).fst = db := by simp [api_admin_create_slot, hf]
        rw [hstep]; exact hinv
      | valid t =>
        by_cases ht : t ≤ now
        · have hstep : (api_admin_create_slot db adminId serviceId (.valid t)
              now newId).fst = db := by simp [api_admin_create_slot, hf, ht]
          rw [hstep]; exact hinv
        · have hstep : (api_admin_create_slot db adminId serviceId (.valid t)
              now newId).fst.slots = db.slots ++
              [⟨newId, svc.id, t, false, none, none, none, "available",
                false, false⟩] := by
            simp [api_admin_create_slot, hf, ht]
          intro s hs
          rw [hstep] at hs
          rcases List.mem_append.mp hs with hs | hs
          · exact hinv s hs
          · rw [List.mem_singleton.mp hs]
            simp [slotInv]
  · -- book slot
    cases slotIdOpt with
    | none =>
      have hstep : (api_book_slot db uid uname none now).fst = db := by
        simp [api_book_slot]
      rw [hstep]; exact hinv
    | some sid =>
      by_cases h0 : sid = 0
      · have hstep : (api_book_slot db uid uname (some sid) now).fst = db := by
          simp [api_book_slot, h0]
        rw [hstep]; exact hinv
      · cases hf : db.slots.find? (fun s => s.id == sid) with
        | none =>
          have hstep : (api_book_slot db uid uname (some sid) now).fst = db := by
            simp [api_book_slot, h0, hf]
          rw [hstep]; exact hinv
        | some slot =>
          by_cases hb : slot.booked
          · have hstep : (api_book_slot db uid uname (some sid) now).fst = db := by
              simp [api_book_slot, h0, hf, hb]
            rw [hstep]; exact hinv
          · have hstep : (api_book_slot db uid uname (some sid) now).fst.slots
                = updateSlot db.slots sid (bookFields uid uname now) := by
              simp [api_book_slot, h0, hf, hb]
            intro s hs
            rw [hstep] at hs
            exact slotsInv_updateSlot hinv
              (fun s _ => slotInv_bookFields uid uname now s) s hs
  · -- list user bookings
    exact list_user_bookings_inv db uid uname now hinv
  · -- mark arrived
    cases hf : db.slots.find?
        (fun s => s.id == slotId && s.booked_by_id == some uid) with
    | none =>
      have hstep : (api_mark_arrived db uid slotId).fst = db := by
        simp [api_mark_arrived, hf]
      rw [hstep]; exact hinv
    | some slot =>
      have hstep : (api_mark_arrived db uid slotId).fst.slots
          = updateSlot db.slots slot.id
            (fun s => { s with status := "arrived", arrived := true }) := by
        simp [api_mark_arrived, hf]
      intro s hs
      rw [hstep] at hs
      exact slotsInv_updateSlot hinv
        (fun s hsv => slotInv_of_fields
          (f := fun s => { s with status := "arrived", arrived := true })
          (fun _ => rfl) (fun _ => rfl) hsv) s hs
  · -- admin mark arrived
    cases hf : db.slots.find? (fun s => s.id == slotId) with
    | none =>
      have hstep : (api_admin_mark_arrived db slotId).fst = db := by
        simp [api_admin_mark_arrived, hf]
      rw [hstep]; exact hinv
    | some slot =>
      by_cases hb : slot.booked = false
      · have hstep : (api_admin_mark_arrived db slotId).fst = db := by
          simp [api_admin_mark_arrived, hf, hb]
        rw [hstep]; exact hinv
      · have hstep : (api_admin_mark_arrived db slotId).fst.slots
            = updateSlot db.slots slot.id
              (fun s => { s with status := "arrived", arrived := true }) := by
          simp [api_admin_mark_arrived, hf, hb]
        intro s hs
        rw [hstep] at hs
        exact slotsInv_updateSlot hinv
          (fun s hsv => slotInv_of_fields
            (f := fun s => { s with status := "arrived", arrived := true })
            (fun _ => rfl) (fun _ => rfl) hsv) s hs
  · -- manual find-next-slot
    cases hf : db.slots.find?
        (fun s => s.id == slotId && s.booked_by_id == some uid) with
    | none =>
      have hstep : (api_find_next_slot db uid uname slotId now).fst = db := by
        simp [api_find_next_slot, hf]
      rw [hstep]; exact hinv
    | some oldSlot =>
      have hstep : (api_find_next_slot db uid uname slotId now).fst.slots
          = (find_and_book_next_slot db.slots uid uname oldSlot.service_id
              oldSlot false now).fst := by
        simp [api_find_next_slot, hf]
      intro s hs
      rw [hstep] at hs
      exact find_and_book_inv db.slots uid uname oldSlot.service_id oldSlot
        false now hinv s hs
  · -- delete slot
    cases hf : db.services.find?
        (fun s => s.id == serviceId && s.admin_id == adminId) with
    | none =>
      have hstep : (api_admin_delete_slot db adminId serviceId slotId).fst
          = db := by simp [api_admin_delete_slot, hf]
      rw [hstep]; exact hinv
    | some svc =>
      cases hf2 : db.slots.find?
          (fun sl => sl.id == slotId && sl.service_id == svc.id) with
      | none =>
        have hstep : (api_admin_delete_slot db adminId serviceId slotId).fst
            = db := by simp [api_admin_delete_slot, hf, hf2]
        rw [hstep]; exact hinv
      | some slot =>
        have hstep : (api_admin_delete_slot db adminId serviceId slotId).fst.slots
            = db.slots.filter (fun sl => !(sl.id == slot.id)) := by
          simp [api_admin_delete_slot, hf, hf2]
        intro s hs
        rw [hstep] at hs
        exact slotsInv_filter hinv s hs
  · -- delete service
    cases hf : db.services.find?
        (fun s => s.id == serviceId && s.admin_id == adminId) with
    | none =>
      have hstep : (api_admin_delete_service db adminId serviceId).fst = db := by
        simp [api_admin_delete_service, hf]
      rw [hstep]; exact hinv
    | some svc =>
      have hstep : (api_admin_delete_service db adminId serviceId).fst.slots
          = db.slots.filter (fun sl => !(sl.service_id == svc.id)) := by
        simp [api_admin_delete_service, hf]
      intro s hs
      rw [hstep] at hs
      exact slotsInv_filter hinv s hs
  · intro s
    exact ⟨rfl, rfl⟩
  · intro s
    exact ⟨rfl, rfl⟩

/-- Concrete instance of C4: the invariant holds on a small database and
is preserved across all the operations at concrete arguments. -/
theorem C4_booked_iff_booker_witness :
    bookedInv (api_book_slot
      ⟨[], [⟨1, 10, "Clinic", "dentist", none, none, "addr"⟩],
       [⟨1, 1, 300, false, none, none, none, "available", false, false⟩]⟩
      7 "Eve" (some 1) 150).fst ∧
    bookedInv (api_list_user_bookings
      ⟨[], [⟨1, 10, "Clinic", "dentist", none, none, "addr"⟩],
       [⟨1, 1, 300, false, none, none, none, "available", false, false⟩]⟩
      7 "Eve" 150).fst := by
  have h := C4_booked_iff_booker
    ⟨[], [⟨1, 10, "Clinic", "dentist", none, none, "addr"⟩],
     [⟨1, 1, 300, false, none, none, none, "available", false, false⟩]⟩
    7 10 1 1 2 "Eve" (some 1) (.valid 200) 150 false (by decide)
  exact ⟨h.2.1, h.2.2.1⟩

/-! ### The lazy reschedule passes of `api_list_user_bookings` (C2, C3) -/

theorem earliestBy_congr {p : Slot → Bool} {l1 l2 : List Slot}
    (h : l1.filter p = l2.filter p) : earliestBy p l1 = earliestBy p l2 := by
  unfold earliestBy
  rw [h]

theorem filter_map_eq {f : Slot → Slot} {p : Slot → Bool} :
    ∀ {l : List Slot},
      (∀ s ∈ l, p (f s) = p s ∧ (p s = true → f s = s)) →
      (l.map f).filter p = l.filter p := by
  intro l
  induction l with
  | nil => intro _; rfl
  | cons a rest ih =>
    intro h
    have ha := h a (List.mem_cons_self a rest)
    have hrest := fun s hs => h s (List.mem_cons.mpr (Or.inr hs))
    simp only [List.map_cons, List.filter_cons, ha.1]
    cases hpa : p a with
    | false =>
      simp only [Bool.false_eq_true, if_false]
      exact ih hrest
    | true =>
      simp only [if_true]
      rw [ha.2 hpa, ih hrest]

/-- The pass-1 rewrite changes no slot's membership in the pass-2
candidate query, and leaves every candidate untouched: a second miss has
`auto_rescheduled = true` (excluded before) and becomes `no-show`
(excluded after). -/
theorem markSecondMisses_missed_invariant (services : List Service)
    (uid : Nat) (now : Int) (s : Slot) :
    ((hasService services (if hasService services s && isSecondMiss uid now s
          then { s with status := "no-show" } else s)
        && isMissedCandidate uid now
          (if hasService services s && isSecondMiss uid now s
            then { s with status := "no-show" } else s))
      = (hasService services s && isMissedCandidate uid now s)) ∧
    ((hasService services s && isMissedCandidate uid now s) = true →
      (if hasService services s && isSecondMiss uid now s
        then { s with status := "no-show" } else s) = s) := by
  by_cases hc : (hasService services s && isSecondMiss uid now s) = true
  · have hsm : isSecondMiss uid now s = true := by
      have h := hc
      simp only [Bool.and_eq_true] at h
      exact h.2
    have hauto : s.auto_rescheduled = true := by
      simp only [isSecondMiss, Bool.and_eq_true, beq_iff_eq] at hsm
      exact hsm.2
    have hps : (hasService services s && isMissedCandidate uid now s)
        = false := by
      have hmc : isMissedCandidate uid now s = false := by
        simp [isMissedCandidate, hauto]
      simp [hmc]
    constructor
    · rw [if_pos hc]
      have h1 : hasService services { s with status := "no-show" }
          = hasService services s := rfl
      have h2 : isMissedCandidate uid now { s with status := "no-show" }
          = false := by
        simp [isMissedCandidate]
      rw [h1, h2, Bool.and_false, hps]
    · intro hp
      rw [hps] at hp
      exact absurd hp (by simp)
  · constructor
    · rw [if_neg hc]
    · intro _
      rw [if_neg hc]

/-- Pass 1 does not change the result of pass 2's candidate query. -/
theorem missedCandidate_markSecondMisses (services : List Service)
    (uid : Nat) (now : Int) (slots : List Slot) :
    missedCandidate services uid now (markSecondMisses services uid now slots)
      = missedCandidate services uid now slots := by
  unfold missedCandidate markSecondMisses
  apply earliestBy_congr
  apply filter_map_eq
  intro s _
  exact markSecondMisses_missed_invariant services uid now s

theorem markSecondMisses_eq_map (services : List Service) (uid : Nat)
    (now : Int) (slots : List Slot) :
    markSecondMisses services uid now slots = slots.map
      (fun x => if hasService services x && isSecondMiss uid now x
        then { x with status := "no-show" } else x) := rfl

theorem markFn_id (services : List Service) (uid : Nat) (now : Int)
    (t : Slot) :
    ((fun x => if hasService services x && isSecondMiss uid now x
      then { x with status := "no-show" } else x) t).id = t.id := by
  dsimp only
  split <;> rfl

theorem nodup_ids_map {l : List Slot} {f : Slot → Slot}
    (hf : ∀ t, (f t).id = t.id) (hnd : (l.map Slot.id).Nodup) :
    ((l.map f).map Slot.id).Nodup := by
  have heq : (l.map f).map Slot.id = l.map Slot.id := by
    rw [List.map_map]
    exact List.map_congr_left (fun x _ => hf x)
  rw [heq]
  exact hnd

/-- A row that is neither the reschedule's old slot nor a possible
replacement (booked, or not strictly in the future) is left untouched by
`_find_and_book_next_slot`. -/
theorem find_and_book_untouched (slots : List Slot) (uid : Nat)
    (uname : String) (sid : Nat) (old : Slot) (auto : Bool) (now : Int)
    (hnd : (slots.map Slot.id).Nodup) {x : Slot} (hx : x ∈ slots)
    (hxold : x.id ≠ old.id) (hxfree : x.booked = true ∨ ¬ now < x.time) :
    (find_and_book_next_slot slots uid uname sid old auto now).fst.find?
      (fun y => y.id == x.id) = some x := by
  cases hc : earliestBy (isCandidate sid now) slots with
  | none =>
    have hstep : (find_and_book_next_slot slots uid uname sid old auto now).fst
        = updateSlot slots old.id (fun s => { s with status := "no-show" }) := by
      simp [find_and_book_next_slot, hc]
    rw [hstep, updateSlot_eq_map]
    have hfind := find?_map_of_nodup
      (f := fun s => if s.id = old.id then { s with status := "no-show" } else s)
      (fun t => by dsimp only; split <;> rfl) hnd hx
    simp only [if_neg hxold] at hfind
    exact hfind
  | some ns =>
    obtain ⟨hnsmem, hnsp, -⟩ := earliestBy_spec hc
    have hnsfacts : ns.booked = false ∧ now < ns.time := by
      simp only [isCandidate, Bool.and_eq_true, decide_eq_true_eq] at hnsp
      exact ⟨hnsp.1.2, hnsp.2⟩
    have hxns : x.id ≠ ns.id := by
      intro heq
      have hxeq : x = ns := id_injOn_of_nodup hnd hx hnsmem heq
      rcases hxfree with hb | ht
      · rw [hxeq, hnsfacts.1] at hb
        exact absurd hb (by simp)
      · exact ht (hxeq ▸ hnsfacts.2)
    have hstep : (find_and_book_next_slot slots uid uname sid old auto now).fst
        = updateSlot (updateSlot slots old.id
            (fun s => { s with status := "no-show" }))
            ns.id (applyBooking uid uname now auto) := by
      simp [find_and_book_next_slot, hc]
    rw [hstep, updateSlot_eq_map, updateSlot_eq_map, List.map_map]
    have hfind := find?_map_of_nodup
      (f := (fun s => if s.id = ns.id then applyBooking uid uname now auto s
          else s) ∘
        (fun s => if s.id = old.id then { s with status := "no-show" } else s))
      (fun t => by
        dsimp only [Function.comp]
        split <;> (split <;> rfl)) hnd hx
    simp only [Function.comp, if_neg hxold, if_neg hxns] at hfind
    exact hfind

/-- C2: a slot is auto-rescheduled at most once.  In the list-own-bookings
pass, every slot of the caller that is still `"booked"`, not arrived, past
its 15-minute grace window and already `auto_rescheduled` ends up
`"no-show"` in the resulting table; and the pass-2 candidate query can
only ever select a slot with `auto_rescheduled = false`, so no
auto-rescheduled slot is rescheduled a second time. -/
theorem C2_auto_rescheduled_at_most_once (db : DB) (uid : Nat)
    (uname : String) (now : Int) (hnd : (db.slots.map Slot.id).Nodup) :
    (∀ s ∈ db.slots, hasService db.services s = true →
      s.booked_by_id = some uid → s.status = "booked" → s.arrived = false →
      s.time + 15 < now → s.auto_rescheduled = true →
      (api_list_user_bookings db uid uname now).fst.slots.find?
        (fun x => x.id == s.id) = some { s with status := "no-show" }) ∧
    (∀ (services : List Service) (slots : List Slot) (c : Slot),
      missedCandidate services uid now slots = some c →
      c.auto_rescheduled = false) := by
  constructor
  · intro s hs hJ hB hS hA hT hR
    have hcond : (hasService db.services s && isSecondMiss uid now s) = true := by
      simp [isSecondMiss, hJ, hB, hS, hA, hR, hT]
    have hf1s : (if hasService db.services s && isSecondMiss uid now s
        then { s with status := "no-show" } else s)
        = { s with status := "no-show" } := if_pos hcond
    cases hcand : missedCandidate db.services uid now
        (markSecondMisses db.services uid now db.slots) with
    | none =>
      have hfinal : (api_list_user_bookings db uid uname now).fst.slots
          = markSecondMisses db.services uid now db.slots := by
        simp [api_list_user_bookings, hcand]
      rw [hfinal, markSecondMisses_eq_map]
      have hfind := find?_map_of_nodup
        (f := fun x => if hasService db.services x && isSecondMiss uid now x
          then { x with status := "no-show" } else x)
        (markFn_id db.services uid now) hnd hs
      simp only [hf1s] at hfind
      exact hfind
    | some c =>
      have hcand' := hcand
      unfold missedCandidate at hcand'
      obtain ⟨hcmem, hcp, -⟩ := earliestBy_spec hcand'
      have hcauto : c.auto_rescheduled = false := by
        simp only [Bool.and_eq_true, isMissedCandidate, beq_iff_eq] at hcp
        exact hcp.2.2
      rw [markSecondMisses_eq_map] at hcmem
      obtain ⟨t, htmem, htc⟩ := List.mem_map.mp hcmem
      have hct : c.auto_rescheduled = t.auto_rescheduled := by
        rw [← htc]
        split <;> rfl
      have htauto : t.auto_rescheduled = false := hct ▸ hcauto
      have htne : t.id ≠ s.id := by
        intro heq
        have hts : t = s := id_injOn_of_nodup hnd htmem hs heq
        rw [hts, hR] at htauto
        exact absurd htauto (by simp)
      have hcid_ne : c.id ≠ s.id := by
        have hcid : c.id = t.id := by
          rw [← htc]
          split <;> rfl
        rw [hcid]
        exact htne
      have hfinal : (api_list_user_bookings db uid uname now).fst.slots
          = (find_and_book_next_slot
              (markSecondMisses db.services uid now db.slots)
              uid uname c.service_id c true now).fst := by
        simp [api_list_user_bookings, hcand]
      rw [hfinal]
      have hxmem : ({ s with status := "no-show" } : Slot)
          ∈ markSecondMisses db.services uid now db.slots := by
        rw [markSecondMisses_eq_map]
        have hmm := List.mem_map_of_mem
          (fun x => if hasService db.services x && isSecondMiss uid now x
            then { x with status := "no-show" } else x) hs
        simpa only [hf1s] using hmm
      have hnd1 : ((markSecondMisses db.services uid now db.slots).map
          Slot.id).Nodup := by
        rw [markSecondMisses_eq_map]
        exact nodup_ids_map (markFn_id db.services uid now) hnd
      have huntouched := find_and_book_untouched
        (markSecondMisses db.services uid now db.slots) uid uname
        c.service_id c true now hnd1 hxmem
        (by simpa using Ne.symm hcid_ne)
        (by
          right
          show ¬ now < ({ s with status := "no-show" } : Slot).time
          dsimp only
          omega)
      simpa using huntouched
  · intro services slots c hc
    unfold missedCandidate at hc
    have hcp := (earliestBy_spec hc).2.1
    simp only [Bool.and_eq_true, isMissedCandidate, beq_iff_eq] at hcp
    exact hcp.2.2

/-- Concrete instance of C2: an auto-rescheduled slot missed again goes to
`no-show` on the next bookings listing, even though a free future slot
exists. -/
theorem C2_auto_rescheduled_at_most_once_witness :
    (api_list_user_bookings
      ⟨[], [⟨1, 10, "Clinic", "dentist", none, none, "addr"⟩],
       [⟨1, 1, 100, true, some 5, some "Bob", some 50, "booked", true, false⟩,
        ⟨2, 1, 300, false, none, none, none, "available", false, false⟩]⟩
      5 "Bob" 150).fst.slots.find? (fun x => x.id == (1 : Nat)) =
      some ⟨1, 1, 100, true, some 5, some "Bob", some 50, "no-show", true, false⟩ :=
  (C2_auto_rescheduled_at_most_once
    ⟨[], [⟨1, 10, "Clinic", "dentist", none, none, "addr"⟩],
     [⟨1, 1, 100, true, some 5, some "Bob", some 50, "booked", true, false⟩,
      ⟨2, 1, 300, false, none, none, none, "available", false, false⟩]⟩
    5 "Bob" 150 (by decide)).1
    ⟨1, 1, 100, true, some 5, some "Bob", some 50, "booked", true, false⟩
    (by decide) (by decide) (by decide) (by decide) (by decide) (by decide)
    (by decide)

/-- C3: in list-own-bookings, exactly the earliest slot of the caller with
`status="booked"`, not arrived, past the 15-minute grace window and never
auto-rescheduled (judged on the incoming table) triggers the reschedule
algorithm with `auto = true`; if there is none, only the no-show pass
runs; and the returned list is the caller's bookings drawn from the
post-side-effect table, ordered by slot time descending. -/
theorem C3_earliest_missed_triggers_reschedule (db : DB) (uid : Nat)
    (uname : String) (now : Int) :
    (missedCandidate db.services uid now db.slots = none →
      (api_list_user_bookings db uid uname now).fst.slots
        = markSecondMisses db.services uid now db.slots) ∧
    (∀ c, missedCandidate db.services uid now db.slots = some c →
      c ∈ db.slots ∧
      (hasService db.services c && isMissedCandidate uid now c) = true ∧
      (∀ s ∈ db.slots,
        (hasService db.services s && isMissedCandidate uid now s) = true →
        c.time ≤ s.time) ∧
      (api_list_user_bookings db uid uname now).fst.slots
        = (find_and_book_next_slot
            (markSecondMisses db.services uid now db.slots)
            uid uname c.service_id c true now).fst) ∧
    ((api_list_user_bookings db uid uname now).snd.Perm
      ((api_list_user_bookings db uid uname now).fst.slots.filter
        (fun s => hasService db.services s && s.booked_by_id == some uid))) ∧
    ((api_list_user_bookings db uid uname now).snd.Pairwise
      (fun a b => b.time ≤ a.time)) := by
  have hinv := missedCandidate_markSecondMisses db.services uid now db.slots
  have hsnd : (api_list_user_bookings db uid uname now).snd
      = sortByTimeDesc
        ((api_list_user_bookings db uid uname now).fst.slots.filter
          (fun s => hasService db.services s && s.booked_by_id == some uid)) :=
    rfl
  refine ⟨?_, ?_, ?_, ?_⟩
  · intro hnone
    have hcand1 : missedCandidate db.services uid now
        (markSecondMisses db.services uid now db.slots) = none := by
      rw [hinv]
      exact hnone
    simp [api_list_user_bookings, hcand1]
  · intro c hc
    have hcand1 : missedCandidate db.services uid now
        (markSecondMisses db.services uid now db.slots) = some c := by
      rw [hinv]
      exact hc
    have hc' := hc
    unfold missedCandidate at hc'
    obtain ⟨hcmem, hcp, hcmin⟩ := earliestBy_spec hc'
    exact ⟨hcmem, hcp, hcmin, by simp [api_list_user_bookings, hcand1]⟩
  · rw [hsnd]
    unfold sortByTimeDesc
    exact List.perm_insertionSort _ _
  · rw [hsnd]
    unfold sortByTimeDesc
    haveI : IsTotal Slot (fun a b => b.time ≤ a.time) :=
      ⟨fun a b => le_total b.time a.time⟩
    haveI : IsTrans Slot (fun a b => b.time ≤ a.time) :=
      ⟨fun _ _ _ hab hbc => le_trans hbc hab⟩
    exact List.sorted_insertionSort _ _

/-- Concrete instance of C3: with one missed never-auto-rescheduled slot,
the handler's resulting table is exactly the no-show pass followed by the
reschedule of that slot with `auto = true`. -/
theorem C3_earliest_missed_triggers_reschedule_witness :
    (api_list_user_bookings
      ⟨[], [⟨1, 10, "Clinic", "dentist", none, none, "addr"⟩],
       [⟨1, 1, 100, true, some 5, some "Bob", some 50, "booked", false, false⟩,
        ⟨2, 1, 300, false, none, none, none, "available", false, false⟩,
        ⟨3, 1, 200, false, none, none, none, "available", false, false⟩]⟩
      5 "Bob" 150).fst.slots
    = (find_and_book_next_slot
        (markSecondMisses [⟨1, 10, "Clinic", "dentist", none, none, "addr"⟩] 5 150
          [⟨1, 1, 100, true, some 5, some "Bob", some 50, "booked", false, false⟩,
           ⟨2, 1, 300, false, none, none, none, "available", false, false⟩,
           ⟨3, 1, 200, false, none, none, none, "available", false, false⟩])
        5 "Bob" 1
        ⟨1, 1, 100, true, some 5, some "Bob", some 50, "booked", false, false⟩
        true 150).fst :=
  ((C3_earliest_missed_triggers_reschedule
    ⟨[], [⟨1, 10, "Clinic", "dentist", none, none, "addr"⟩],
     [⟨1, 1, 100, true, some 5, some "Bob", some 50, "booked", false, false⟩,
      ⟨2, 1, 300, false, none, none, none, "available", false, false⟩,
      ⟨3, 1, 200, false, none, none, none, "available", false, false⟩]⟩
    5 "Bob" 150).2.1
    ⟨1, 1, 100, true, some 5, some "Bob", some 50, "booked", false, false⟩
    (by decide)).2.2.2

end SwiftMeet
